import Mathlib

/-!
Verification development for the cxx-flow / proj-flow repository.

The development shallowly embeds the template-layering engine
(src/cxx_flow/flow/layer.py), the release orchestrator
(src/src/proj_flow/log/release.py) and the context-nesting transform
(src/src/proj_flow/project/interact.py) into Lean, and proves or refutes
the frozen claims about them.

Conventions:
- strings are Lean Strings; character-level helpers mirror the Python
  string methods used by the sources (str.split, str.rfind, int(...),
  os.path.splitext with a POSIX separator);
- stateful collaborator calls (git, hosting, changelog generator) are
  modelled as an explicit call trace;
- machine integers do not occur (Python ints are unbounded), so Int/Nat
  are used directly.
-/

/- ===================== Python string primitives ===================== -/

/-- Characters of a Python `str.split(sep)` with a one-character separator:
splitting an empty string yields one empty chunk, adjacent separators yield
empty chunks. -/
def pySplitChars (sep : Char) : List Char → List (List Char)
  | [] => [[]]
  | c :: rest =>
    let r := pySplitChars sep rest
    if c = sep then [] :: r
    else
      match r with
      | [] => [[c]]
      | h :: t => (c :: h) :: t

/-- Python `s.split(sep)` for a one-character separator. -/
def pySplit (s : String) (sep : Char) : List String :=
  (pySplitChars sep s.data).map fun cs => (⟨cs⟩ : String)

/-- Helper for `s.split(sep, 1)`: locate the first separator. -/
def pySplitFirstAux (sep : Char) : List Char → Option (List Char × List Char)
  | [] => none
  | c :: rest =>
    if c = sep then some ([], rest)
    else
      match pySplitFirstAux sep rest with
      | none => none
      | some (pre, post) => some (c :: pre, post)

/-- Python `s.split(sep, 1)` for a one-character separator: at most one
split, performed at the first occurrence. -/
def pySplitOnce (s : String) (sep : Char) : List String :=
  match pySplitFirstAux sep s.data with
  | none => [s]
  | some (pre, post) => [(⟨pre⟩ : String), (⟨post⟩ : String)]

/-- Python `sep.join(parts)`. -/
def pyJoin (sep : String) : List String → String
  | [] => ""
  | [x] => x
  | x :: xs => x ++ sep ++ pyJoin sep xs

/-- Digit run of a Python `int(...)` parse; fails on a non-digit. -/
def pyDigitsAux : List Char → Nat → Option Nat
  | [], acc => some acc
  | c :: rest, acc =>
    if 48 ≤ c.toNat ∧ c.toNat ≤ 57 then
      pyDigitsAux rest (acc * 10 + (c.toNat - 48))
    else none

/-- Nonempty digit run for `int(...)`. -/
def pyDigits (cs : List Char) : Option Nat :=
  if cs = [] then none else pyDigitsAux cs 0

/-- Python `int(s)` on the inputs the version parser can meet: an optional
sign followed by a nonempty digit run (surrounding whitespace and digit
grouping underscores, which `int` also accepts, never occur in version
strings and are not modelled). `none` models a raised `ValueError`. -/
def pyInt (s : String) : Option Int :=
  match s.data with
  | '-' :: ds => (pyDigits ds).map fun n => -(n : Int)
  | '+' :: ds => (pyDigits ds).map fun n => (n : Int)
  | ds => (pyDigits ds).map fun n => (n : Int)

/-- Python `str(i)` for an int (via Lean's decimal printer, which agrees
with Python on every integer). -/
def pyStr (i : Int) : String := toString i

/-- Index of the last occurrence of `c`, as Python `s.rfind(c)`: `-1` when
absent. -/
def pyRfindAux (c : Char) : List Char → Nat → Int → Int
  | [], _, best => best
  | x :: rest, i, best =>
    pyRfindAux c rest (i + 1) (if x = c then (i : Int) else best)

/-- Python `s.rfind(c)` for a one-character needle. -/
def pyRfind (s : String) (c : Char) : Int :=
  pyRfindAux c s.data 0 (-1)

/-- Decide whether some character strictly between positions `start` and
`stop` differs from `'.'` — the leading-dot test of CPython's
`genericpath._splitext`. -/
def hasNonDotBetween (cs : List Char) (start stop : Nat) : Bool :=
  ((cs.drop start).take (stop - start)).any fun ch => ch ≠ '.'

/-- CPython `os.path.splitext` with POSIX separator `'/'` (no altsep) and
`extsep = '.'`: split at the last dot provided it lies after the last slash
and the basename does not consist solely of leading dots up to it. -/
def splitext (p : String) : String × String :=
  let cs := p.data
  let sepIndex := pyRfind p '/'
  let dotIndex := pyRfind p '.'
  if sepIndex < dotIndex then
    if hasNonDotBetween cs (sepIndex + 1).toNat dotIndex.toNat then
      ((⟨cs.take dotIndex.toNat⟩ : String), (⟨cs.drop dotIndex.toNat⟩ : String))
    else (p, "")
  else (p, "")

/-- Lexicographic comparison of code-point lists: the order Python uses to
compare `str` values. -/
def lexLe : List Char → List Char → Bool
  | [], _ => true
  | _ :: _, [] => false
  | a :: as, b :: bs =>
    if a.toNat < b.toNat then true
    else if b.toNat < a.toNat then false
    else lexLe as bs

/-- Python `a <= b` on strings. -/
def pyStrLe (a b : String) : Bool := lexLe a.data b.data

/- ===================== Stable sort (list.sort) ===================== -/

/-- Insert into a sorted list, before the first strictly greater element —
the insertion step of a stable sort. -/
def insertSorted (le : α → α → Bool) (x : α) : List α → List α
  | [] => [x]
  | y :: ys => if le x y then x :: y :: ys else y :: insertSorted le x ys

/-- Stable insertion sort. Python's `list.sort` is also a stable sort, and
for a total preorder a stable sort's output is uniquely determined by its
input, so this function is extensionally the `files.sort(key=...)` of the
source. -/
def pySort (le : α → α → Bool) : List α → List α
  | [] => []
  | x :: xs => insertSorted le x (pySort le xs)

/- ===================== Commit levels and _bump_version ===================== -/

/-- Modelled from the spec: the commit-level enumeration of
`proj_flow.log.commit` (not among the sources). The spec orders the levels
"BENIGN < FEATURE < BREAKING" and requires "BREAKING→index 0 = major,
FEATURE→index 1 = minor, etc.", i.e. exactly three ranked non-benign levels
with consecutive integer values; the source's own comment ("This turns
[1, 2, 3] through 4 - x into [3, 2, 1]") fixes the ranks 1..4. -/
inductive Level where
  | BENIGN
  | PATCH
  | FEATURE
  | BREAKING
deriving DecidableEq, Repr

/-- Integer rank of a commit level (`Level.value` in the source). -/
def Level.value : Level → Nat
  | .BENIGN => 1
  | .PATCH => 2
  | .FEATURE => 3
  | .BREAKING => 4

/-- The loop `for index in range(lvl + 1, len(semver)): semver[index] = 0`
of release.py lines 45-46: keep the first `keep` components, zero the rest. -/
def keepZero (keep : Nat) : List Int → List Int
  | [] => []
  | x :: rest =>
    match keep with
    | 0 => 0 :: keepZero 0 rest
    | n + 1 => x :: keepZero n rest

/-- Core of `_bump_version` acting on the parsed, padded component list
(release.py lines 41-46): for a level above BENIGN, increment the component
at index `BREAKING.value - level.value` and zero every later component. -/
def bumpComponents (semver : List Int) (level : Level) : List Int :=
  if level.value > Level.BENIGN.value then
    let lvl := Level.BREAKING.value - level.value
    keepZero (lvl + 1) (semver.set lvl (semver.getD lvl 0 + 1))
  else semver

/-- Embedding of `_bump_version` (release.py lines 29-48): split off the
`-`-stability suffix at the first dash, parse the dotted core with
`int(...)`, pad with zeros / truncate to exactly three components, bump,
rejoin and re-attach the suffix. `none` models a `ValueError` escaping
from `int(...)`. -/
def _bump_version (ver : String) (level : Level) : Option String := do
  let split := pySplitOnce ver '-'
  let stability := if split.length = 2 then "-" ++ split.getD 1 "" else ""
  let parts ← (pySplit (split.getD 0 "") '.').mapM pyInt
  let semver := (parts ++ List.replicate (3 - parts.length) 0).take 3
  let semver := bumpComponents semver level
  return pyJoin "." (semver.map pyStr) ++ stability

/- ===================== Release orchestrator (add_release) ===================== -/

/-- Runtime flags consumed by the orchestrator and by layer runs. -/
structure Runtime where
  dry_run : Bool
  silent : Bool := false
  use_color : Bool := false

/-- One collaborator invocation made by `add_release`, in program order.
Query-only calls (`tag_list`, `get_log`, `get_version_file_path`) are
modelled through `ReleaseEnv` instead of the trace, since they mutate
nothing. -/
inductive Call where
  | update_changelog
  | set_version (version : String)
  | updater_on_version_change (version : String)
  | add_files (files : List String)
  | commit (message : String)
  | annotated_tag (tagName message : String)
  | hosting_add_release (draft : Bool)
  | user_message (text : String)
deriving DecidableEq, Repr

/-- Terminal failures of `add_release`: `NoProjectError` and
`VersionNotAdvancing` are raised exceptions (proj_flow.log.error), `Fatal`
is the runtime's fatal-message channel (`rt.fatal`, which terminates the
process), `ValueError` a parse failure escaping `int(...)`. -/
inductive ReleaseError where
  | NoProjectError
  | VersionNotAdvancing (version : String)
  | Fatal (message : String)
  | ValueError
deriving DecidableEq, Repr

/-- `OneOrMoreStrings = Union[str, Iterable[str]]` of release.py. -/
abbrev OneOrMoreStrings := String ⊕ List String

/-- Environment of one `add_release` run: results of the query-only
collaborators (`project_suites.find`, `git.tag_list`, `git.get_log`,
`suite.get_version_file_path`) and the registered version updaters.
`format_commit_message` abstracts `fmt.format_commit_message` from
`proj_flow.log.fmt`, which is not among the sources. -/
structure ReleaseEnv where
  has_project : Bool := true
  project_version : String
  tags : List String
  changelog : String
  log_level : Level
  generator_filename : String
  version_file_path : Option String
  updaters : List (String → OneOrMoreStrings)
  hosting_is_active : Bool
  hosting_draft_url : Option String
  format_commit_message : String → String

/-- Python truthiness gate `if version_path:` used by both branches of
release.py lines 101-103 / 113-115: append only a non-None, nonempty path. -/
def optPath : Option String → List String
  | none => []
  | some p => if p = "" then [] else [p]

/-- Files contributed by the registered version updaters (release.py lines
105-110): each returns one path or a list of paths. -/
def updaterFiles (updaters : List (String → OneOrMoreStrings)) (version : String) :
    List String :=
  (updaters.map fun u =>
    match u version with
    | .inl s => [s]
    | .inr l => l).flatten

/-- Embedding of `add_release` (release.py lines 58-126). Returns the
ordered collaborator-call trace alongside the terminal error, if any.
`git.tag_list` and `git.get_log` results come from the environment;
everything from the changelog write onward is recorded in the trace. -/
def add_release (rt : Runtime) (forced_level : Option Level)
    (_take_all _draft : Bool) (env : ReleaseEnv) : List Call × Option ReleaseError :=
  if !env.has_project then ([], some .NoProjectError)
  else
    let project_version := env.project_version
    match _bump_version project_version (forced_level.getD env.log_level) with
    | none => ([], some .ValueError)
    | some next_version =>
      let curr_tag := "v" ++ next_version
      if next_version = project_version then
        ([], some (.VersionNotAdvancing next_version))
      else if env.tags.contains curr_tag then
        ([], some (.Fatal ("Tag " ++ curr_tag ++ " already exists.")))
      else
        let branch :=
          if !rt.dry_run then
            ([Call.update_changelog, Call.set_version next_version] ++
              env.updaters.map (fun _ => Call.updater_on_version_change next_version),
             [env.generator_filename] ++ optPath env.version_file_path ++
              updaterFiles env.updaters next_version)
          else
            ([], [env.generator_filename] ++ optPath env.version_file_path)
        let commit_message := "release " ++ next_version
        let calls := branch.1 ++
          [Call.add_files branch.2,
           Call.commit ("chore: " ++ commit_message ++
             env.format_commit_message env.changelog),
           Call.annotated_tag curr_tag commit_message] ++
          (if env.hosting_is_active then
            [Call.hosting_add_release _draft] ++
              (match env.hosting_draft_url with
               | some url => if url = "" then [] else [Call.user_message ("-- Visit draft at " ++ url)]
               | none => [])
          else [])
        (calls, none)

/-- Classify the calls that stage, commit, tag or publish. -/
def Call.isVcsOrHostingMutation : Call → Bool
  | .add_files _ => true
  | .commit _ => true
  | .annotated_tag _ _ => true
  | .hosting_add_release _ => true
  | _ => false

/-- Modelled from the spec: the `Git` and `Hosting` collaborators live in
`proj_flow.log.commit`, which is not among the sources; per the spec,
"the tag/commit/push side effects are suppressed from step 5 onward for
disk/VCS mutation" when the runtime is in dry-run, so a VCS or hosting
invocation performs its mutation exactly when `dry_run` is off. -/
def performedMutations (rt : Runtime) (calls : List Call) : List Call :=
  if rt.dry_run then [] else calls.filter Call.isVcsOrHostingMutation

/- ===================== Settings context and chevron model ===================== -/

/-- A resolved settings value: string or boolean (`ctx.SettingsType` values;
the list-valued settings are already collapsed before reaching the layer
engine). -/
inductive Val where
  | b (bval : Bool)
  | s (sval : String)
deriving DecidableEq, Repr

/-- A settings context: insertion-ordered mapping from key to value. The
layer code resolves `when` keys through chevron against this context; keys
are treated atomically here (the dotted-name descent chevron would perform
on nested dictionaries is outside these claims). -/
abbrev Ctx := List (String × Val)

/-- Dictionary lookup. -/
def lookupCtx (c : Ctx) (k : String) : Option Val :=
  (c.find? fun kv => kv.1 = k).map fun kv => kv.2

/-- Mustache section truthiness of a context value, as chevron implements
it for the value kinds that occur here: a missing key and an empty string
are falsy, a boolean is itself. -/
def pyTruthy : Option Val → Bool
  | some (.b bv) => bv
  | some (.s sv) => sv ≠ ""
  | none => false

/-- Truthiness of a `when` key under a context. -/
def truthyKey (c : Ctx) (k : String) : Bool := pyTruthy (lookupCtx c k)

/-- Python `str(value)` of a context value, as chevron interpolates it. -/
def valueText : Option Val → String
  | some (.s sv) => sv
  | some (.b true) => "True"
  | some (.b false) => "False"
  | none => ""

/-- Modelled from the spec: chevron's mustache variable interpolation
(`chevron.render` on an inline template such as a `filelist` `path`
override), restricted to `\x7b\x7bkey\x7d\x7d` substitutions — the spec's
"mustache-style text expansion over a settings context". A missing key
renders as the empty string; HTML escaping never alters the path strings
involved and is not modelled. The accumulator holds the key of a partially
read tag. -/
def renderVarsAux (c : Ctx) : List Char → Option (List Char) → List Char
  | [], _ => []
  | '{' :: '{' :: rest, none => renderVarsAux c rest (some [])
  | ch :: rest, none => ch :: renderVarsAux c rest none
  | '}' :: '}' :: rest, some key =>
    (valueText (lookupCtx c (⟨key⟩ : String))).data ++ renderVarsAux c rest none
  | ch :: rest, some key => renderVarsAux c rest (some (key ++ [ch]))

/-- Inline `chevron.render(template, context)` for variable substitution. -/
def chevronRenderVars (template : String) (c : Ctx) : String :=
  (⟨renderVarsAux c template.data none⟩ : String)

/-- Classification of one line of a conditional layer template. -/
inductive LineKind where
  | sec (key : String)
  | secEnd
  | text
deriving DecidableEq, Repr

/-- Does the character list end in the two closing braces of a tag? -/
def endsWithBraces (cs : List Char) : Bool :=
  match cs.reverse with
  | '}' :: '}' :: _ => true
  | _ => false

/-- Classify a template line: `\x7b\x7b#key\x7d\x7d` opens a section,
`\x7b\x7b/key\x7d\x7d` closes one, anything else is text. -/
def lineTag (line : String) : LineKind :=
  match line.data with
  | c1 :: c2 :: c3 :: rest =>
    if c1 = '{' ∧ c2 = '{' then
      if c3 = '#' then
        if endsWithBraces rest then .sec (⟨rest.take (rest.length - 2)⟩ : String)
        else .text
      else if c3 = '/' then
        if endsWithBraces rest then .secEnd else .text
      else .text
    else .text
  | _ => .text

/-- Modelled from the spec: `chevron.render` on the line-structured
conditional templates that `LayerInfo.template` produces, composed with the
`.split("\n")` of `LayerInfo.from_fs`. Mustache semantics per the spec:
a section's body lines appear iff the section key's value is truthy
(arbitrarily nested sections conjoin), and standalone section-tag lines are
removed together with their newline. The stack holds the keys of the open
sections. -/
def renderLines (c : Ctx) : List String → List String → List String
  | [], _ => []
  | l :: rest, stack =>
    match lineTag l with
    | .sec k => renderLines c rest (k :: stack)
    | .secEnd => renderLines c rest stack.tail
    | .text =>
      (if stack.all (truthyKey c) then [l] else []) ++ renderLines c rest stack

/-- `chevron.render(template, context).split("\n")` for a conditional layer
template. -/
def chevronRenderSplit (template : String) (c : Ctx) : List String :=
  renderLines c (pySplit template '\n') []

/- ===================== FileInfo ===================== -/

/-- File descriptor (layer.py lines 16-21). -/
structure FileInfo where
  src : String
  dst : String
  is_mustache : Bool
  when : Option String := none
deriving DecidableEq, Repr

/-- One `filelist` entry of a layer's JSON descriptor. -/
structure FileEntry where
  path : Option String := none
  when : Option String := none
deriving DecidableEq, Repr

/-- The `filelist` map of a layer's JSON descriptor. -/
abbrev Filelist := List (String × FileEntry)

/-- Dictionary lookup in a filelist. -/
def lookupFilelist (filelist : Filelist) (k : String) : Option FileEntry :=
  (filelist.find? fun kv => kv.1 = k).map fun kv => kv.2

/-- Embedding of `FileInfo.from_json` (layer.py lines 23-36). With the
POSIX separator, `src.replace(os.sep, "/")` and `.replace("/", os.sep)`
are identities. -/
def FileInfo.from_json (src : String) (filelist : Filelist) (context : Ctx) :
    FileInfo :=
  let se := splitext src
  let basename := se.1
  let ext := se.2
  let is_mustache := ext = ".mustache"
  let key := src
  let json_file := (lookupFilelist filelist key).getD {}
  let dst :=
    match json_file.path with
    | some p => chevronRenderVars p context
    | none => if is_mustache then basename else src
  { src := src, dst := dst, is_mustache := is_mustache, when := json_file.when }

/-- Embedding of `FileInfo.template` (layer.py lines 38-43); `if self.when:`
is Python truthiness, so a `None` or empty `when` yields the bare line. -/
def FileInfo.template (fi : FileInfo) : String :=
  match fi.when with
  | some w =>
    if w ≠ "" then
      "\x7b\x7b#" ++ w ++ "\x7d\x7d\n" ++ fi.dst ++ "\n\x7b\x7b/" ++ w ++ "\x7d\x7d\n"
    else fi.dst ++ "\n"
  | none => fi.dst ++ "\n"

/-- Effects of one `FileInfo.run` (layer.py lines 45-68): an optional
progress line, then — unless dry-run — a materialization of `dst` from
`root/src` (rendered when `is_mustache`, byte-copied otherwise, metadata
preserved either way). -/
inductive RunEvent where
  | progress (line : String)
  | materialize (src dst : String) (rendered : Bool)
deriving DecidableEq, Repr

/-- Trace of `FileInfo.run`. -/
def FileInfo.runTrace (fi : FileInfo) (root : String) (rt : Runtime) : List RunEvent :=
  (if !rt.silent then
    [RunEvent.progress
      (if rt.use_color then "\x1b[2;30m+\x1b[m " ++ fi.dst else "+ " ++ fi.dst)]
  else []) ++
  (if rt.dry_run then []
   else [RunEvent.materialize (root ++ "/" ++ fi.src) fi.dst fi.is_mustache])

/- ===================== LayerInfo ===================== -/

/-- Layer descriptor (layer.py lines 71-75). -/
structure LayerInfo where
  root : String
  files : List FileInfo
  when : Option String := none
deriving DecidableEq, Repr

/-- Concatenation of the per-file templates (the `"".join` of layer.py
line 132). -/
def concatTemplates : List FileInfo → String
  | [] => ""
  | fi :: rest => fi.template ++ concatTemplates rest

/-- Embedding of `LayerInfo.template` (layer.py lines 126-135). -/
def LayerInfo.template (li : LayerInfo) : String :=
  let body := concatTemplates li.files
  match li.when with
  | some w =>
    if w ≠ "" then "\x7b\x7b#" ++ w ++ "\x7d\x7d\n" ++ body ++ "\x7b\x7b/" ++ w ++ "\x7d\x7d\n"
    else body
  | none => body

/-- Sort order of `files.sort(key=lambda info: info.dst)`. -/
def fileLe (a b : FileInfo) : Bool := pyStrLe a.dst b.dst

/-- The parsed `<layer_dir>.json` descriptor: a layer-level `when` and the
`filelist` map. (The source's `cast(Optional[bool], ...)` annotation on
`when` is a runtime no-op; the value feeds `LayerInfo.template` as a key.) -/
structure LayerJson where
  when : Option String := none
  filelist : Filelist := []
deriving DecidableEq, Repr

/-- Embedding of the pure tail of `LayerInfo.from_fs` (layer.py lines
100-112), taking the JSON descriptor and the relative source paths the
directory walk produced: build a `FileInfo` per source, sort by
destination, render the layer's own conditional template, keep the files
whose destination is among the rendered nonempty lines. -/
def LayerInfo.from_fs (layer_dir : String) (layer_json : LayerJson)
    (sources : List String) (context : Ctx) : LayerInfo :=
  let files := sources.map fun src => FileInfo.from_json src layer_json.filelist context
  let files := pySort fileLe files
  let result : LayerInfo := ⟨layer_dir, files, layer_json.when⟩
  let allowed := (chevronRenderSplit result.template context).filter fun path => path ≠ ""
  { result with files := files.filter fun file => allowed.contains file.dst }

/-- Trace of `LayerInfo.run` (layer.py lines 137-146): a header line, each
file's run in list order, a trailing blank line. -/
def LayerInfo.runTrace (li : LayerInfo) (rt : Runtime) : List RunEvent :=
  (if !rt.silent then [RunEvent.progress "[header]"] else []) ++
  (li.files.map fun file => file.runTrace li.root rt).flatten ++
  (if !rt.silent then [RunEvent.progress ""] else [])

/-- Destination of a materialization event. -/
def materializedDst : RunEvent → Option String
  | .materialize _ dst _ => some dst
  | .progress _ => none

/- ===================== Directory walk (from_fs, lines 84-98) ===================== -/

/-- A directory tree: named subdirectories and regular file names. -/
inductive FsTree where
  | node (dirs : List (String × FsTree)) (files : List String)

/-- Python `==` between the tuple `os.path.splitext(filename)` returns and
a `str` is always `False` — values of different types never compare equal —
so the membership test below never matches. -/
def pyPairEqStr (_pair : String × String) (_s : String) : Bool := false

/-- Embedding of the file filter on layer.py line 91:
`os.path.splitext(filename) not in [".pyc", ".pyo", ".pyd"]`. -/
def bytecodeFilterKeeps (filename : String) : Bool :=
  !([".pyc", ".pyo", ".pyd"].any fun s => pyPairEqStr (splitext filename) s)

mutual
/-- Embedding of the `os.walk` loop of `LayerInfo.from_fs` (layer.py lines
84-98) with the layer-directory prefix already stripped: collect each kept
file of the current directory as `rel ++ name`, then descend into every
subdirectory except `__pycache__`, in order. -/
def collectTree (rel : String) : FsTree → List String
  | .node dirs files =>
    (files.filter bytecodeFilterKeeps).map (fun f => rel ++ f) ++ collectDirs rel dirs
/-- Walk the subdirectories, pruning `__pycache__` (layer.py line 87). -/
def collectDirs (rel : String) : List (String × FsTree) → List String
  | [] => []
  | (dirname, t) :: rest =>
    (if dirname ∈ ["__pycache__"] then [] else collectTree (rel ++ dirname ++ "/") t) ++
      collectDirs rel rest
end

/-- `LayerInfo.from_fs` including its directory scan: the JSON descriptor
plus the on-disk tree under the layer directory. -/
def LayerInfo.from_fs_walk (layer_dir : String) (layer_json : LayerJson)
    (tree : FsTree) (context : Ctx) : LayerInfo :=
  LayerInfo.from_fs layer_dir layer_json (collectTree "" tree) context

/- ===================== Gatherer ===================== -/

/-- One candidate layer directory found by `gather_package_layers`: its
path, its sibling JSON descriptor, its file tree. -/
structure LayerDirEntry where
  dirPath : String
  json : LayerJson
  tree : FsTree

/-- Embedding of `gather_package_layers` (layer.py lines 162-173): build a
`LayerInfo` per discovered layer directory and keep only those with at
least one surviving file, preserving discovery order. -/
def gather_package_layers (layer_dirs : List LayerDirEntry) (context : Ctx) :
    List LayerInfo :=
  (layer_dirs.map fun e => LayerInfo.from_fs_walk e.dirPath e.json e.tree context).filter
    fun layer => decide (0 < layer.files.length)

/- ===================== Context nesting (_fixup_context) ===================== -/

/-- The condition a file's `when` imposes, as `FileInfo.template` encodes
it: an absent or empty key is unconditional, otherwise the key must be
truthy. -/
def condHolds (c : Ctx) : Option String → Bool
  | some w => if w ≠ "" then truthyKey c w else true
  | none => true

/-- The lines `FileInfo.template` contributes to the layer template
(before the final newline split). -/
def fileLines (fi : FileInfo) : List String :=
  match fi.when with
  | some w =>
    if w ≠ "" then
      ["\x7b\x7b#" ++ w ++ "\x7d\x7d", fi.dst, "\x7b\x7b/" ++ w ++ "\x7d\x7d"]
    else [fi.dst]
  | none => [fi.dst]

/-- The lines a whole file list contributes to the layer template. -/
def filesLines : List FileInfo → List String
  | [] => []
  | fi :: rest => fileLines fi ++ filesLines rest

/-- Does a line open with the two mustache braces? -/
def looksLikeTag (d : String) : Bool :=
  match d.data with
  | c1 :: c2 :: _ => decide (c1 = '{' ∧ c2 = '{')
  | _ => false

/-- Well-formedness of a destination path as a template text line: nonempty,
newline-free, and not itself shaped like a mustache tag. -/
def wfText (d : String) : Prop :=
  d ≠ "" ∧ '\n' ∉ d.data ∧ looksLikeTag d = false

/-- Well-formedness of an optional `when` key: absent, or nonempty and
newline-free. -/
def wfWhen : Option String → Prop
  | none => True
  | some w => w ≠ "" ∧ '\n' ∉ w.data

/-- Well-formedness of a file descriptor for the conditional-template
round trip. -/
def wfFile (fi : FileInfo) : Prop := wfText fi.dst ∧ wfWhen fi.when

instance : DecidablePred wfText := fun d => by unfold wfText; infer_instance

instance : ∀ o, Decidable (wfWhen o) := fun o => by
  unfold wfWhen
  cases o <;> infer_instance

instance : DecidablePred wfFile := fun fi => by unfold wfFile; infer_instance

/- ===================== Concrete instances for witnesses ===================== -/

/-- A dry-run runtime. -/
def rtDry : Runtime := ⟨true, false, false⟩

/-- A non-dry-run runtime. -/
def rtWet : Runtime := ⟨false, false, false⟩

/-- A release environment whose validation passes: current version 1.2.3,
FEATURE log level, no clashing tag. -/
def envRel : ReleaseEnv :=
  { project_version := "1.2.3", tags := [], changelog := "body",
    log_level := .FEATURE, generator_filename := "CHANGELOG.md",
    version_file_path := some "VERSION", updaters := [],
    hosting_is_active := false, hosting_draft_url := none,
    format_commit_message := fun s => "\n\n" ++ s }

/-- A release environment at a BENIGN level whose candidate tag already
exists: current version 1.0.0, tag list `["v1.0.0"]`. -/
def envStale : ReleaseEnv :=
  { project_version := "1.0.0", tags := ["v1.0.0"], changelog := "",
    log_level := .BENIGN, generator_filename := "CHANGELOG.md",
    version_file_path := none, updaters := [],
    hosting_is_active := false, hosting_draft_url := none,
    format_commit_message := fun _ => "" }

/-- `envRel` with the candidate tag `v1.3.0` already listed. -/
def envClash : ReleaseEnv := { envRel with tags := ["v1.3.0"] }

/-- Layer-engine witness context: `FOO` falsy, `BAR` truthy. -/
def ctx5w : Ctx := [("FOO", .b false), ("BAR", .b true)]

/-- Layer-engine witness descriptor: `a.mustache` gated by `FOO`, `b.txt`
gated by `BAR`, `c.txt` ungated. -/
def lj5w : LayerJson :=
  { filelist := [("a.mustache", { when := some "FOO" }), ("b.txt", { when := some "BAR" })] }

/-- Layer-engine witness sources. -/
def srcs5w : List String := ["a.mustache", "b.txt", "c.txt"]

/-- Claim C2: `_bump_version` splits the version on the first dash keeping
the suffix verbatim, pads/truncates the dotted core to exactly three
integers, and for a level above BENIGN increments the component at index
(BREAKING rank minus level rank) and zeroes every component to its right,
leaving all components unchanged for BENIGN; in particular
`_bump_version("1.2.3", FEATURE) = "1.3.0"`,
`_bump_version("1.2.3", BREAKING) = "2.0.0"`,
`_bump_version("1.2.3-rc.1", BENIGN) = "1.2.3-rc.1"` and
`_bump_version("1.2", FEATURE) = "1.3.0"`. The first four conjuncts are the
claim's component-level bump behaviour on an arbitrary padded core, the
next two exhibit zero-padding and truncation to three components, the next
dash-splitting with a verbatim suffix, and the last four are the claim's
concrete examples. -/
theorem c2_bump_version :
    (∀ a b c : Int, bumpComponents [a, b, c] Level.BREAKING = [a + 1, 0, 0]) ∧
    (∀ a b c : Int, bumpComponents [a, b, c] Level.FEATURE = [a, b + 1, 0]) ∧
    (∀ a b c : Int, bumpComponents [a, b, c] Level.PATCH = [a, b, c + 1]) ∧
    (∀ a b c : Int, bumpComponents [a, b, c] Level.BENIGN = [a, b, c]) ∧
    _bump_version "7" Level.BENIGN = some "7.0.0" ∧
    _bump_version "1.2.3.4" Level.BENIGN = some "1.2.3" ∧
    _bump_version "1.2.3-a-b.4" Level.PATCH = some "1.2.4-a-b.4" ∧
    _bump_version "1.2.3" Level.FEATURE = some "1.3.0" ∧
    _bump_version "1.2.3" Level.BREAKING = some "2.0.0" ∧
    _bump_version "1.2.3-rc.1" Level.BENIGN = some "1.2.3-rc.1" ∧
    _bump_version "1.2" Level.FEATURE = some "1.3.0" := by
  refine ⟨fun a b c => rfl, fun a b c => rfl, fun a b c => rfl, fun a b c => rfl,
    ?_, ?_, ?_, ?_, ?_, ?_, ?_⟩ <;> decide

/- ===================== C6: the directory-walk file filter ===================== -/

/-- Claim C6 (code bug): the walk is claimed to exclude compiled-bytecode
files (`.pyc`, `.pyo`, `.pyd`), but layer.py line 91 compares the *tuple*
`os.path.splitext(filename)` against strings, which never matches, so the
filter keeps every file name; on a layer directory holding `a.txt`,
`module.pyc`, `__pycache__/m.cpython-311.pyc` and `sub/b.pyo` the scan
returns `module.pyc` and `sub/b.pyo` (only the `__pycache__` pruning
works). -/
theorem c6_walk_keeps_bytecode :
    (∀ filename : String, bytecodeFilterKeeps filename = true) ∧
    collectTree ""
      (FsTree.node
        [("__pycache__", FsTree.node [] ["m.cpython-311.pyc"]),
         ("sub", FsTree.node [] ["b.pyo"])]
        ["a.txt", "module.pyc"]) =
      ["a.txt", "module.pyc", "sub/b.pyo"] := by
  refine ⟨fun filename => ?_, by decide⟩
  simp [bytecodeFilterKeeps, pyPairEqStr]

/- ===================== C7: destination resolution ===================== -/

/-- The two halves of CPython's `os.path.splitext` rejoin to the argument. -/
theorem splitext_append (p : String) : (splitext p).1 ++ (splitext p).2 = p := by
  have key : ∀ n : Nat, (⟨p.data.take n⟩ : String) ++ (⟨p.data.drop n⟩ : String) = p := by
    intro n
    apply String.ext
    simp [String.data_append]
  have key2 : p ++ "" = p := by
    apply String.ext
    simp [String.data_append]
  simp only [splitext]
  split_ifs <;> simp [key, key2]

/-- Claim C7: `FileInfo.from_json` resolves the destination as the rendered
`path` override when present (regardless of `is_mustache`); otherwise as
the source with the `.mustache` suffix removed when the source extension is
`.mustache`; otherwise as the source unchanged. -/
theorem c7_destination_resolution (src : String) (filelist : Filelist) (c : Ctx) :
    (∀ p, ((lookupFilelist filelist src).getD {}).path = some p →
      (FileInfo.from_json src filelist c).dst = chevronRenderVars p c) ∧
    (((lookupFilelist filelist src).getD {}).path = none →
      (splitext src).2 = ".mustache" →
      (FileInfo.from_json src filelist c).is_mustache = true ∧
      (FileInfo.from_json src filelist c).dst ++ ".mustache" = src) ∧
    (((lookupFilelist filelist src).getD {}).path = none →
      (splitext src).2 ≠ ".mustache" →
      (FileInfo.from_json src filelist c).is_mustache = false ∧
      (FileInfo.from_json src filelist c).dst = src) := by
  refine ⟨fun p hp => ?_, fun hp hm => ⟨?_, ?_⟩, fun hp hm => ⟨?_, ?_⟩⟩
  · simp [FileInfo.from_json, hp]
  · simp [FileInfo.from_json, hp, hm]
  · have hdst : (FileInfo.from_json src filelist c).dst = (splitext src).1 := by
      simp [FileInfo.from_json, hp, hm]
    rw [hdst]
    have := splitext_append src
    rw [hm] at this
    exact this
  · simp [FileInfo.from_json, hp, hm]
  · simp [FileInfo.from_json, hp, hm]

/-- Witness for C7 at concrete inputs: a rendered `path` override, a
`.mustache` source without override, and a plain source. -/
theorem c7_witness :
    (FileInfo.from_json "dir/a.mustache"
        [("dir/a.mustache", { path := some "\x7b\x7bNAME\x7d\x7d.txt" })]
        [("NAME", .s "out")]).dst = chevronRenderVars "\x7b\x7bNAME\x7d\x7d.txt" [("NAME", .s "out")] ∧
    (FileInfo.from_json "b.mustache" [] []).dst ++ ".mustache" = "b.mustache" ∧
    (FileInfo.from_json "c.txt" [] []).dst = "c.txt" :=
  ⟨(c7_destination_resolution "dir/a.mustache"
      [("dir/a.mustache", { path := some "\x7b\x7bNAME\x7d\x7d.txt" })]
      [("NAME", .s "out")]).1 "\x7b\x7bNAME\x7d\x7d.txt" (by decide),
   ((c7_destination_resolution "b.mustache" [] []).2.1 (by decide) (by decide)).2,
   ((c7_destination_resolution "c.txt" [] []).2.2 (by decide) (by decide)).2⟩

/- ===================== C1, C3, C4: add_release ===================== -/

/-- Shape of an `add_release` run that passes validation: the pre-commit
calls and staged files depend on dry-run, then staging, commit, annotated
tag, and the hosting tail. -/
theorem add_release_success_eq (rt : Runtime) (forced_level : Option Level)
    (ta dr : Bool) (env : ReleaseEnv) (nv : String)
    (hp : env.has_project = true)
    (hb : _bump_version env.project_version (forced_level.getD env.log_level) = some nv)
    (hne : nv ≠ env.project_version)
    (htag : env.tags.contains ("v" ++ nv) = false) :
    add_release rt forced_level ta dr env =
      ((if !rt.dry_run then
          [Call.update_changelog, Call.set_version nv] ++
            env.updaters.map (fun _ => Call.updater_on_version_change nv)
        else []) ++
        [Call.add_files
          (if !rt.dry_run then
            [env.generator_filename] ++ optPath env.version_file_path ++
              updaterFiles env.updaters nv
          else [env.generator_filename] ++ optPath env.version_file_path),
         Call.commit ("chore: " ++ ("release " ++ nv) ++
           env.format_commit_message env.changelog),
         Call.annotated_tag ("v" ++ nv) ("release " ++ nv)] ++
        (if env.hosting_is_active then
          [Call.hosting_add_release dr] ++
            (match env.hosting_draft_url with
             | some url =>
               if url = "" then [] else [Call.user_message ("-- Visit draft at " ++ url)]
             | none => [])
        else []), none) := by
  have htag2 : ("v" ++ nv) ∉ env.tags := by simpa using htag
  by_cases hdr : rt.dry_run <;>
    simp [add_release, hp, hb, hne, htag2, hdr, List.append_assoc]

/-- Claim C1: with the dry-run flag set, `add_release` still succeeds and
still computes the predicted files-to-commit list — the changelog
generator's filename plus the version-file path when one exists — without
invoking any registered version updater (and without writing the changelog
or setting the version), and no commit, annotated tag, or hosting release
is performed (`performedMutations` carries the spec-modelled dry-run
suppression of the Git/Hosting collaborators). -/
theorem c1_dry_run_predicts_files (rt : Runtime) (forced_level : Option Level)
    (ta dr : Bool) (env : ReleaseEnv) (nv : String)
    (hdry : rt.dry_run = true)
    (hp : env.has_project = true)
    (hb : _bump_version env.project_version (forced_level.getD env.log_level) = some nv)
    (hne : nv ≠ env.project_version)
    (htag : env.tags.contains ("v" ++ nv) = false) :
    (add_release rt forced_level ta dr env).2 = none ∧
    Call.add_files ([env.generator_filename] ++ optPath env.version_file_path) ∈
      (add_release rt forced_level ta dr env).1 ∧
    (∀ v, Call.updater_on_version_change v ∉ (add_release rt forced_level ta dr env).1) ∧
    Call.update_changelog ∉ (add_release rt forced_level ta dr env).1 ∧
    (∀ v, Call.set_version v ∉ (add_release rt forced_level ta dr env).1) ∧
    performedMutations rt (add_release rt forced_level ta dr env).1 = [] := by
  have heq := add_release_success_eq rt forced_level ta dr env nv hp hb hne htag
  rw [heq]
  refine ⟨rfl, ?_, ?_, ?_, ?_, ?_⟩
  · simp [hdry]
  · intro v
    rcases hact : env.hosting_is_active with _ | _ <;>
      rcases hurl : env.hosting_draft_url with _ | url <;>
        simp [hdry, hact, hurl]
  · rcases hact : env.hosting_is_active with _ | _ <;>
      rcases hurl : env.hosting_draft_url with _ | url <;>
        simp [hdry, hact, hurl]
  · intro v
    rcases hact : env.hosting_is_active with _ | _ <;>
      rcases hurl : env.hosting_draft_url with _ | url <;>
        simp [hdry, hact, hurl]
  · simp [performedMutations, hdry]

/-- Witness for C1: the dry run on `envRel` stages exactly the changelog
and version files, calls no updater, and performs no mutation. -/
theorem c1_witness :
    (add_release rtDry none false false envRel).2 = none ∧
    Call.add_files ["CHANGELOG.md", "VERSION"] ∈ (add_release rtDry none false false envRel).1 ∧
    Call.updater_on_version_change "1.3.0" ∉ (add_release rtDry none false false envRel).1 ∧
    Call.update_changelog ∉ (add_release rtDry none false false envRel).1 ∧
    performedMutations rtDry (add_release rtDry none false false envRel).1 = [] := by
  have h := c1_dry_run_predicts_files rtDry none false false envRel "1.3.0"
    (by decide) (by decide) (by decide) (by decide) (by decide)
  exact ⟨h.1, h.2.1, h.2.2.1 "1.3.0", h.2.2.2.1, h.2.2.2.2.2⟩

/-- Claim C3 counterexample: with current version 1.0.0, BENIGN level and
the candidate tag `v1.0.0` already listed, the candidate tag *is* among the
listed tags, yet `add_release` raises `VersionNotAdvancing` instead of
reporting "tag already exists" through the fatal channel — the
version-not-advancing check runs first. -/
theorem c3_counterexample :
    envStale.tags.contains ("v" ++ "1.0.0") = true ∧
    add_release rtWet none false false envStale =
      ([], some (.VersionNotAdvancing "1.0.0")) ∧
    (add_release rtWet none false false envStale).2 ≠
      some (.Fatal "Tag v1.0.0 already exists.") := by decide

/-- Claim C3 as amended: after the next version is computed, `add_release`
fails before any collaborator call (its call trace is empty): it raises
`VersionNotAdvancing` whenever the computed next version equals the current
project version, and it reports "tag already exists" through the fatal
channel whenever the candidate tag `v<version>` is among the listed tags
*and the version is advancing* (the non-advancing check takes precedence). -/
theorem c3_validation_order (rt : Runtime) (forced_level : Option Level)
    (ta dr : Bool) (env : ReleaseEnv) (nv : String)
    (hp : env.has_project = true)
    (hb : _bump_version env.project_version (forced_level.getD env.log_level) = some nv) :
    (nv = env.project_version →
      add_release rt forced_level ta dr env = ([], some (.VersionNotAdvancing nv))) ∧
    (nv ≠ env.project_version → env.tags.contains ("v" ++ nv) = true →
      add_release rt forced_level ta dr env =
        ([], some (.Fatal ("Tag " ++ ("v" ++ nv) ++ " already exists.")))) := by
  constructor
  · intro h1
    simp [add_release, hp, hb, h1]
  · intro h1 h2
    have h2m : ("v" ++ nv) ∈ env.tags := by simpa using h2
    simp [add_release, hp, hb, h1, h2m]

/-- Witness for C3 as amended: the BENIGN no-op release raises
`VersionNotAdvancing`, and a clashing tag with an advancing version is
fatal; both leave the call trace empty. -/
theorem c3_witness :
    add_release rtWet none false false envStale =
      ([], some (.VersionNotAdvancing "1.0.0")) ∧
    add_release rtWet none false false envClash =
      ([], some (.Fatal ("Tag " ++ ("v" ++ "1.3.0") ++ " already exists."))) :=
  ⟨(c3_validation_order rtWet none false false envStale "1.0.0"
      (by decide) (by decide)).1 (by decide),
   (c3_validation_order rtWet none false false envClash "1.3.0"
      (by decide) (by decide)).2 (by decide) (by decide)⟩

/-- Claim C4 counterexample: on a successful run the message passed to
`git.commit` is *not* `release <version>` followed by the formatted
changelog — the source prefixes it with `chore: ` (release.py line 119);
with `envRel` (formatting the body as two newlines plus the body) the trace
holds `chore: release 1.3.0\n\nbody` and no commit call with
`release 1.3.0\n\nbody`. -/
theorem c4_counterexample :
    Call.commit ("chore: release 1.3.0\n\nbody") ∈
      (add_release rtWet none false false envRel).1 ∧
    Call.commit ("release 1.3.0\n\nbody") ∉
      (add_release rtWet none false false envRel).1 := by decide

/-- Claim C4 as amended: when `add_release` reaches the commit step, the
message passed to the git commit operation is exactly `chore: ` followed by
`release <version>` followed by the formatted rendering of the changelog
body, and the annotated tag `v<version>` is created with message
`release <version>`. -/
theorem c4_commit_and_tag_messages (rt : Runtime) (forced_level : Option Level)
    (ta dr : Bool) (env : ReleaseEnv) (nv : String)
    (hp : env.has_project = true)
    (hb : _bump_version env.project_version (forced_level.getD env.log_level) = some nv)
    (hne : nv ≠ env.project_version)
    (htag : env.tags.contains ("v" ++ nv) = false) :
    Call.commit ("chore: " ++ ("release " ++ nv) ++
        env.format_commit_message env.changelog) ∈
      (add_release rt forced_level ta dr env).1 ∧
    Call.annotated_tag ("v" ++ nv) ("release " ++ nv) ∈
      (add_release rt forced_level ta dr env).1 := by
  have heq := add_release_success_eq rt forced_level ta dr env nv hp hb hne htag
  rw [heq]
  constructor <;> simp

/-- Witness for C4 as amended, on `envRel` without dry-run. -/
theorem c4_witness :
    Call.commit ("chore: " ++ ("release " ++ "1.3.0") ++
        envRel.format_commit_message envRel.changelog) ∈
      (add_release rtWet none false false envRel).1 ∧
    Call.annotated_tag ("v" ++ "1.3.0") ("release " ++ "1.3.0") ∈
      (add_release rtWet none false false envRel).1 :=
  c4_commit_and_tag_messages rtWet none false false envRel "1.3.0"
    (by decide) (by decide) (by decide) (by decide)

/- ===================== C8: ordering ===================== -/

/-- Transitivity of the code-point lexicographic order. -/
theorem lexLe_trans : ∀ a b c : List Char,
    lexLe a b = true → lexLe b c = true → lexLe a c = true
  | [], _, _, _, _ => rfl
  | _ :: _, [], _, h, _ => by simp [lexLe] at h
  | _ :: _, _ :: _, [], _, h => by simp [lexLe] at h
  | a :: as, b :: bs, c :: cs, h1, h2 => by
    simp only [lexLe] at h1 h2 ⊢
    by_cases g1 : a.toNat < b.toNat
    · by_cases g3 : b.toNat < c.toNat
      · have hac : a.toNat < c.toNat := g1.trans g3
        simp [hac]
      · by_cases g4 : c.toNat < b.toNat
        · simp [g3, g4] at h2
        · have hac : a.toNat < c.toNat := by omega
          simp [hac]
    · by_cases g2 : b.toNat < a.toNat
      · simp [g1, g2] at h1
      · simp [g1, g2] at h1
        by_cases g3 : b.toNat < c.toNat
        · have hac : a.toNat < c.toNat := by omega
          simp [hac]
        · by_cases g4 : c.toNat < b.toNat
          · simp [g3, g4] at h2
          · simp [g3, g4] at h2
            have h5 : ¬ a.toNat < c.toNat := by omega
            have h6 : ¬ c.toNat < a.toNat := by omega
            simp [h5, h6]
            exact lexLe_trans as bs cs h1 h2

/-- Totality of the code-point lexicographic order. -/
theorem lexLe_total : ∀ a b : List Char, lexLe a b = true ∨ lexLe b a = true
  | [], _ => Or.inl rfl
  | _ :: _, [] => Or.inr rfl
  | a :: as, b :: bs => by
    simp only [lexLe]
    by_cases g1 : a.toNat < b.toNat
    · left
      simp [g1]
    · by_cases g2 : b.toNat < a.toNat
      · right
        simp [g2]
      · rcases lexLe_total as bs with h | h
        · left
          simp [g1, g2, h]
        · right
          simp [g1, g2, h]

/-- Transitivity of the file-destination order. -/
theorem fileLe_trans (a b c : FileInfo) :
    fileLe a b = true → fileLe b c = true → fileLe a c = true :=
  lexLe_trans a.dst.data b.dst.data c.dst.data

/-- Totality of the file-destination order. -/
theorem fileLe_total (a b : FileInfo) : fileLe a b = true ∨ fileLe b a = true :=
  lexLe_total a.dst.data b.dst.data

/-- Membership through the insertion step. -/
theorem mem_insertSorted (le : α → α → Bool) (x z : α) :
    ∀ l : List α, z ∈ insertSorted le x l ↔ z = x ∨ z ∈ l
  | [] => by simp [insertSorted]
  | y :: ys => by
    simp only [insertSorted]
    split_ifs with h
    · simp [or_comm, or_assoc, or_left_comm]
    · simp only [List.mem_cons, mem_insertSorted le x z ys]
      tauto

/-- The insertion step permutes the cons. -/
theorem insertSorted_perm (le : α → α → Bool) (x : α) :
    ∀ l : List α, (insertSorted le x l).Perm (x :: l)
  | [] => List.Perm.refl _
  | y :: ys => by
    simp only [insertSorted]
    split_ifs with h
    · exact List.Perm.refl _
    · exact ((insertSorted_perm le x ys).cons y).trans (List.Perm.swap x y ys)

/-- The sort permutes its input. -/
theorem pySort_perm (le : α → α → Bool) : ∀ l : List α, (pySort le l).Perm l
  | [] => List.Perm.refl _
  | x :: xs =>
    (insertSorted_perm le x (pySort le xs)).trans ((pySort_perm le xs).cons x)

/-- The insertion step preserves sortedness for a total, transitive
comparison. -/
theorem insertSorted_pairwise (le : α → α → Bool)
    (htr : ∀ a b c, le a b = true → le b c = true → le a c = true)
    (hto : ∀ a b, le a b = true ∨ le b a = true) (x : α) :
    ∀ l : List α, l.Pairwise (fun a b => le a b = true) →
      (insertSorted le x l).Pairwise (fun a b => le a b = true)
  | [], _ => by simp [insertSorted]
  | y :: ys, hp => by
    rcases List.pairwise_cons.mp hp with ⟨hy, hys⟩
    simp only [insertSorted]
    split_ifs with h
    · refine List.pairwise_cons.mpr ⟨?_, hp⟩
      intro z hz
      rcases List.mem_cons.mp hz with rfl | hz
      · exact h
      · exact htr x y z h (hy z hz)
    · refine List.pairwise_cons.mpr ⟨?_, insertSorted_pairwise le htr hto x ys hys⟩
      intro z hz
      rcases (mem_insertSorted le x z ys).mp hz with rfl | hz
      · rcases hto z y with h1 | h1
        · exact absurd h1 h
        · exact h1
      · exact hy z hz

/-- The sort sorts, for a total, transitive comparison. -/
theorem pySort_pairwise (le : α → α → Bool)
    (htr : ∀ a b c, le a b = true → le b c = true → le a c = true)
    (hto : ∀ a b, le a b = true ∨ le b a = true) :
    ∀ l : List α, (pySort le l).Pairwise (fun a b => le a b = true)
  | [] => List.Pairwise.nil
  | x :: xs =>
    insertSorted_pairwise le htr hto x (pySort le xs)
      (pySort_pairwise le htr hto xs)

/-- One file's run contributes its destination exactly when not in dry-run. -/
theorem fileRunTrace_dsts (fi : FileInfo) (root : String) (rt : Runtime) :
    (fi.runTrace root rt).filterMap materializedDst =
      if rt.dry_run then [] else [fi.dst] := by
  rcases hs : rt.silent with _ | _ <;> rcases hd : rt.dry_run with _ | _ <;>
    simp [FileInfo.runTrace, materializedDst, hs, hd]

/-- The flattened per-file traces materialize the files in list order. -/
theorem flatRunTrace_dsts (root : String) (rt : Runtime) :
    ∀ files : List FileInfo,
      ((files.map fun f => f.runTrace root rt).flatten.filterMap materializedDst) =
        if rt.dry_run then [] else files.map fun f => f.dst
  | [] => by rcases hd : rt.dry_run with _ | _ <;> simp [hd]
  | fi :: rest => by
    simp only [List.map_cons, List.flatten_cons, List.filterMap_append,
      fileRunTrace_dsts, flatRunTrace_dsts root rt rest]
    rcases hd : rt.dry_run with _ | _ <;> simp [hd]

/-- Claim C8: the file list `LayerInfo.from_fs` produces is sorted by
destination path in Python's lexicographic string order, `LayerInfo.run`
materializes exactly those files in that list order (its materialization
events' destinations are the files' destinations in sequence, none in
dry-run), and constructing the layer twice from the same inputs yields the
identical ordered result. -/
theorem c8_sorted_deterministic_order (layer_dir : String) (lj : LayerJson)
    (sources : List String) (c : Ctx) :
    ((LayerInfo.from_fs layer_dir lj sources c).files.Pairwise
      fun a b => fileLe a b = true) ∧
    (∀ rt : Runtime,
      ((LayerInfo.from_fs layer_dir lj sources c).runTrace rt).filterMap
          materializedDst =
        if rt.dry_run then []
        else (LayerInfo.from_fs layer_dir lj sources c).files.map fun f => f.dst) ∧
    LayerInfo.from_fs layer_dir lj sources c =
      LayerInfo.from_fs layer_dir lj sources c := by
  refine ⟨?_, ?_, rfl⟩
  · have hsorted :=
      pySort_pairwise fileLe fileLe_trans fileLe_total
        (sources.map fun src => FileInfo.from_json src lj.filelist c)
    simp only [LayerInfo.from_fs]
    exact hsorted.filter _
  · intro rt
    have hmid := flatRunTrace_dsts (LayerInfo.from_fs layer_dir lj sources c).root rt
      (LayerInfo.from_fs layer_dir lj sources c).files
    simp only [LayerInfo.runTrace, List.filterMap_append, hmid]
    rcases hs : rt.silent with _ | _ <;> rcases hd : rt.dry_run with _ | _ <;>
      simp [hs, hd, materializedDst]

/- ===================== C9: the Gatherer drops empty layers ===================== -/

/-- Claim C9: every `LayerInfo` returned by `gather_package_layers` has at
least one surviving file, and a layer whose files are all excluded under
the context is absent from the returned list. -/
theorem c9_gathered_layers_nonempty (layer_dirs : List LayerDirEntry) (c : Ctx) :
    (∀ layer ∈ gather_package_layers layer_dirs c, 0 < layer.files.length) ∧
    (∀ e ∈ layer_dirs,
      (LayerInfo.from_fs_walk e.dirPath e.json e.tree c).files = [] →
      LayerInfo.from_fs_walk e.dirPath e.json e.tree c ∉
        gather_package_layers layer_dirs c) := by
  constructor
  · intro layer hmem
    have := List.of_mem_filter hmem
    simpa using this
  · intro e _ hempty hmem
    have := List.of_mem_filter hmem
    rw [hempty] at this
    simp at this

/-- Witness for C9: a gathered layer with one surviving file is nonempty,
and a layer whose single file is excluded by a falsy layer condition is
dropped. -/
theorem c9_witness :
    0 < (LayerInfo.from_fs_walk "layers/two" {} (.node [] ["a.txt"]) []).files.length ∧
    LayerInfo.from_fs_walk "layers/one" { when := some "OFF" } (.node [] ["a.txt"]) [] ∉
      gather_package_layers
        [⟨"layers/two", {}, .node [] ["a.txt"]⟩,
         ⟨"layers/one", { when := some "OFF" }, .node [] ["a.txt"]⟩] [] := by
  constructor
  · exact (c9_gathered_layers_nonempty
      [⟨"layers/two", {}, .node [] ["a.txt"]⟩,
       ⟨"layers/one", { when := some "OFF" }, .node [] ["a.txt"]⟩] []).1
      (LayerInfo.from_fs_walk "layers/two" {} (.node [] ["a.txt"]) []) (by decide)
  · exact (c9_gathered_layers_nonempty
      [⟨"layers/two", {}, .node [] ["a.txt"]⟩,
       ⟨"layers/one", { when := some "OFF" }, .node [] ["a.txt"]⟩] []).2
      ⟨"layers/one", { when := some "OFF" }, .node [] ["a.txt"]⟩ (by simp)
      (by decide)

/- ===================== C5: conditional inclusion ===================== -/

/-- Rebuilding a string from its characters is the identity. -/
theorem strMk_data (s : String) : (⟨s.data⟩ : String) = s := rfl

/-- Splitting a separator-free chunk off the front. -/
theorem pySplitChars_append (sep : Char) : ∀ (xs ys : List Char), sep ∉ xs →
    pySplitChars sep (xs ++ sep :: ys) = xs :: pySplitChars sep ys
  | [], ys, _ => by simp [pySplitChars]
  | x :: xs, ys, h => by
    have hx : x ≠ sep := fun e => h (e ▸ List.mem_cons_self x xs)
    have ih := pySplitChars_append sep xs ys fun m => h (List.mem_cons_of_mem x m)
    simp only [List.cons_append, pySplitChars, List.append_eq]
    rw [ih]
    simp [hx]

/-- Data of the one-newline string. -/
theorem newline_data : ("\n" : String).data = ['\n'] := rfl

/-- Splitting a newline-free line off the front of a string. -/
theorem pySplit_chunk (x s : String) (h : '\n' ∉ x.data) :
    pySplit (x ++ "\n" ++ s) '\n' = x :: pySplit s '\n' := by
  unfold pySplit
  have hdata : (x ++ "\n" ++ s).data = x.data ++ '\n' :: s.data := by
    simp [String.data_append, newline_data]
  rw [hdata, pySplitChars_append '\n' x.data s.data h]
  simp [strMk_data]

/-- Data of the opening-tag literal. -/
theorem openLit_data : ("\x7b\x7b#" : String).data = ['{', '{', '#'] := rfl

/-- Data of the closing-tag literal. -/
theorem closeLit_data : ("\x7b\x7b/" : String).data = ['{', '{', '/'] := rfl

/-- Data of the brace-pair literal. -/
theorem braces_data : ("\x7d\x7d" : String).data = ['}', '}'] := rfl

/-- A section-opening line has no newline when its key has none. -/
theorem openLine_no_newline (w : String) (h : '\n' ∉ w.data) :
    '\n' ∉ ("\x7b\x7b#" ++ w ++ "\x7d\x7d").data := by
  simp [String.data_append, openLit_data, braces_data, h]

/-- A section-closing line has no newline when its key has none. -/
theorem closeLine_no_newline (w : String) (h : '\n' ∉ w.data) :
    '\n' ∉ ("\x7b\x7b/" ++ w ++ "\x7d\x7d").data := by
  simp [String.data_append, closeLit_data, braces_data, h]

/-- A generated opening tag classifies as a section opener for its key. -/
theorem lineTag_open (w : String) :
    lineTag ("\x7b\x7b#" ++ w ++ "\x7d\x7d") = .sec w := by
  have hd : ("\x7b\x7b#" ++ w ++ "\x7d\x7d").data =
      '{' :: '{' :: '#' :: (w.data ++ ['}', '}']) := by
    simp [String.data_append, openLit_data, braces_data]
  have he : endsWithBraces (w.data ++ ['}', '}']) = true := by
    simp [endsWithBraces, List.reverse_append]
  have hlen : (w.data ++ ['}', '}']).length - 2 = w.data.length := by
    simp
  simp only [lineTag, hd, he, if_true, hlen]
  have ht : (w.data ++ ['}', '}']).take w.data.length = w.data :=
    List.take_left w.data ['}', '}']
  simp [ht, strMk_data]

/-- A generated closing tag classifies as a section closer. -/
theorem lineTag_close (w : String) :
    lineTag ("\x7b\x7b/" ++ w ++ "\x7d\x7d") = .secEnd := by
  have hd : ("\x7b\x7b/" ++ w ++ "\x7d\x7d").data =
      '{' :: '{' :: '/' :: (w.data ++ ['}', '}']) := by
    simp [String.data_append, closeLit_data, braces_data]
  have he : endsWithBraces (w.data ++ ['}', '}']) = true := by
    simp [endsWithBraces, List.reverse_append]
  simp [lineTag, hd, he]

/-- A line that does not open with two braces is text. -/
theorem lineTag_text (d : String) (h : looksLikeTag d = false) :
    lineTag d = .text := by
  rcases hd : d.data with _ | ⟨c1, _ | ⟨c2, _ | ⟨c3, rest⟩⟩⟩
  · simp [lineTag, hd]
  · simp [lineTag, hd]
  · simp [lineTag, hd]
  · unfold looksLikeTag at h
    rw [hd] at h
    simp only [decide_eq_false_iff_not] at h
    simp [lineTag, hd, h]

/-- A well-formed file's template splits into its lines plus the rest. -/
theorem fileTemplate_lines (fi : FileInfo) (s : String) (hwf : wfFile fi) :
    pySplit (fi.template ++ s) '\n' = fileLines fi ++ pySplit s '\n' := by
  obtain ⟨⟨hne, hnl, htag⟩, hwhen⟩ := hwf
  rcases hw : fi.when with _ | w
  · have htpl : fi.template = fi.dst ++ "\n" := by simp [FileInfo.template, hw]
    rw [htpl, pySplit_chunk fi.dst s hnl]
    simp [fileLines, hw]
  · rw [hw] at hwhen
    obtain ⟨hwne, hwnl⟩ := hwhen
    have htpl : fi.template ++ s =
        ("\x7b\x7b#" ++ w ++ "\x7d\x7d") ++ "\n" ++
          (fi.dst ++ "\n" ++ (("\x7b\x7b/" ++ w ++ "\x7d\x7d") ++ "\n" ++ s)) := by
      apply String.ext
      simp [FileInfo.template, hw, hwne, String.data_append, openLit_data,
        closeLit_data, braces_data, newline_data]
    rw [htpl, pySplit_chunk _ _ (openLine_no_newline w hwnl),
      pySplit_chunk _ _ hnl, pySplit_chunk _ _ (closeLine_no_newline w hwnl)]
    simp [fileLines, hw, hwne]

/-- The empty string splits into one empty line. -/
theorem pySplit_empty : pySplit "" '\n' = [""] := rfl

/-- The concatenated templates of well-formed files split into their lines
plus the rest. -/
theorem concatTemplates_lines : ∀ (files : List FileInfo) (s : String),
    (∀ fi ∈ files, wfFile fi) →
    pySplit (concatTemplates files ++ s) '\n' = filesLines files ++ pySplit s '\n'
  | [], s, _ => by
    have : concatTemplates [] ++ s = s := by
      apply String.ext
      simp [concatTemplates, String.data_append]
    rw [this]
    simp [filesLines]
  | fi :: fs, s, h => by
    have h1 := h fi (List.mem_cons_self fi fs)
    have h2 : ∀ g ∈ fs, wfFile g := fun g hg => h g (List.mem_cons_of_mem _ hg)
    have hassoc : concatTemplates (fi :: fs) ++ s =
        fi.template ++ (concatTemplates fs ++ s) := by
      apply String.ext
      simp [concatTemplates, String.data_append]
    rw [hassoc, fileTemplate_lines fi _ h1, concatTemplates_lines fs s h2,
      filesLines, List.append_assoc]

/-- The renderer emits a well-formed file's destination exactly when the
open-section stack and the file's own condition are truthy. -/
theorem renderLines_fileLines (c : Ctx) (fi : FileInfo) (rest : List String)
    (stack : List String) (hwf : wfFile fi) :
    renderLines c (fileLines fi ++ rest) stack =
      (if stack.all (truthyKey c) && condHolds c fi.when then [fi.dst] else []) ++
        renderLines c rest stack := by
  obtain ⟨⟨hne, hnl, htag⟩, hwhen⟩ := hwf
  rcases hw : fi.when with _ | w
  · simp [fileLines, hw, condHolds, renderLines, lineTag_text fi.dst htag]
  · rw [hw] at hwhen
    obtain ⟨hwne, hwnl⟩ := hwhen
    simp only [fileLines, hw, if_pos hwne, List.cons_append, List.nil_append]
    simp only [renderLines, lineTag_open, lineTag_close, lineTag_text fi.dst htag,
      List.tail_cons, List.all_cons, condHolds, if_pos hwne]
    simp [Bool.and_comm]

/-- The renderer maps a well-formed file list to the destinations of the
files whose conditions pass under the open-section stack. -/
theorem renderLines_filesLines (c : Ctx) : ∀ (files : List FileInfo)
    (rest : List String) (stack : List String), (∀ fi ∈ files, wfFile fi) →
    renderLines c (filesLines files ++ rest) stack =
      ((files.filter fun fi => stack.all (truthyKey c) && condHolds c fi.when).map
        fun fi => fi.dst) ++ renderLines c rest stack
  | [], rest, stack, _ => by simp [filesLines]
  | fi :: fs, rest, stack, h => by
    have h1 := h fi (List.mem_cons_self fi fs)
    have h2 : ∀ g ∈ fs, wfFile g := fun g hg => h g (List.mem_cons_of_mem _ hg)
    rw [filesLines, List.append_assoc, renderLines_fileLines c fi _ stack h1,
      renderLines_filesLines c fs rest stack h2, List.filter_cons]
    rcases hcond : (stack.all (truthyKey c) && condHolds c fi.when) with _ | _ <;>
      simp [hcond]

/-- Rendering the tail line of a conditional template. -/
theorem renderLines_lastLine (c : Ctx) : renderLines c [""] [] = [""] := by
  simp [renderLines, lineTag_text "" rfl]

/-- Rendering the layer's conditional template and keeping the nonempty
lines yields exactly the destinations of the files whose own condition and
whose layer's condition are truthy. -/
theorem layerTemplate_allowed (c : Ctx) (li : LayerInfo)
    (hf : ∀ fi ∈ li.files, wfFile fi) (hw : wfWhen li.when) :
    (chevronRenderSplit li.template c).filter (fun path => path ≠ "") =
      ((li.files.filter fun fi => condHolds c li.when && condHolds c fi.when).map
        fun fi => fi.dst) := by
  have hdst_ne : ∀ fi ∈ li.files, fi.dst ≠ "" := fun fi hfi => (hf fi hfi).1.1
  rcases hwn : li.when with _ | w
  · have htpl : li.template = concatTemplates li.files ++ "" := by
      apply String.ext
      simp [LayerInfo.template, hwn, String.data_append]
    unfold chevronRenderSplit
    rw [htpl, concatTemplates_lines li.files "" hf, pySplit_empty,
      renderLines_filesLines c li.files [""] [] hf, renderLines_lastLine]
    rw [List.filter_append]
    have h1 : List.filter (fun path => decide (path ≠ "")) [""] = [] := rfl
    rw [h1, List.append_nil]
    have hpred : (fun (fi : FileInfo) => List.all [] (truthyKey c) && condHolds c fi.when) =
        (fun (fi : FileInfo) => condHolds c (none : Option String) && condHolds c fi.when) := by
      funext fi
      simp [condHolds]
    rw [hpred]
    apply List.filter_eq_self.mpr
    intro path hpath
    obtain ⟨fi, hfi, rfl⟩ := List.mem_map.mp hpath
    simpa using hdst_ne fi (List.mem_of_mem_filter hfi)
  · rw [hwn] at hw
    obtain ⟨hwne, hwnl⟩ := hw
    have htpl : li.template =
        ("\x7b\x7b#" ++ w ++ "\x7d\x7d") ++ "\n" ++
          (concatTemplates li.files ++
            (("\x7b\x7b/" ++ w ++ "\x7d\x7d") ++ "\n" ++ "")) := by
      apply String.ext
      simp [LayerInfo.template, hwn, hwne, String.data_append, openLit_data,
        closeLit_data, braces_data, newline_data]
    unfold chevronRenderSplit
    rw [htpl, pySplit_chunk _ _ (openLine_no_newline w hwnl),
      concatTemplates_lines li.files _ hf,
      pySplit_chunk _ _ (closeLine_no_newline w hwnl), pySplit_empty]
    simp only [renderLines, lineTag_open]
    rw [renderLines_filesLines c li.files _ [w] hf]
    have hlt : lineTag "" = .text := rfl
    simp only [renderLines, lineTag_close, List.tail_cons, hlt, List.all_nil,
      if_true, List.append_nil]
    rw [List.filter_append]
    have h1 : List.filter (fun path => decide (path ≠ "")) [""] = [] := rfl
    rw [h1, List.append_nil]
    have hpred : (fun (fi : FileInfo) => List.all [w] (truthyKey c) && condHolds c fi.when) =
        (fun (fi : FileInfo) => condHolds c (some w) && condHolds c fi.when) := by
      funext fi
      simp [condHolds, hwne]
    rw [hpred]
    apply List.filter_eq_self.mpr
    intro path hpath
    obtain ⟨fi, hfi, rfl⟩ := List.mem_map.mp hpath
    simpa using hdst_ne fi (List.mem_of_mem_filter hfi)

/-- Claim C5 counterexample: the inclusion filter works through the *set of
rendered destination lines*, so two candidate files sharing one destination
stand or fall together: with sources `x` and `x.mustache` (the latter gated
by the falsy key `FOO`) both resolve to destination `x`, and
`LayerInfo.from_fs` retains the gated file although its own `when`
condition evaluates falsy. -/
theorem c5_counterexample :
    ({ src := "x.mustache", dst := "x", is_mustache := true,
       when := some "FOO" } : FileInfo) ∈
      (LayerInfo.from_fs "layer" { filelist := [("x.mustache", { when := some "FOO" })] }
        ["x", "x.mustache"] [("FOO", .b false)]).files ∧
    truthyKey [("FOO", .b false)] "FOO" = false := by decide

/-- Claim C5 as amended: provided the candidate files' destinations are
pairwise distinct, nonempty, newline-free and not themselves shaped like
mustache tags, and every present `when` key (of a file or of the layer) is
a nonempty newline-free string, a candidate file is retained by
`LayerInfo.from_fs` iff both its own `when` condition (absent meaning
unconditional) and the layer's `when` condition evaluate truthy under the
context. -/
theorem c5_inclusion_iff (layer_dir : String) (lj : LayerJson)
    (sources : List String) (c : Ctx) (fi : FileInfo)
    (hwf : ∀ f ∈ sources.map (fun src => FileInfo.from_json src lj.filelist c), wfFile f)
    (hnd : ((sources.map fun src => FileInfo.from_json src lj.filelist c).map
      fun f => f.dst).Nodup)
    (hlw : wfWhen lj.when) :
    fi ∈ (LayerInfo.from_fs layer_dir lj sources c).files ↔
      fi ∈ sources.map (fun src => FileInfo.from_json src lj.filelist c) ∧
        condHolds c fi.when = true ∧ condHolds c lj.when = true := by
  have hperm : (pySort fileLe (sources.map fun src =>
      FileInfo.from_json src lj.filelist c)).Perm
      (sources.map fun src => FileInfo.from_json src lj.filelist c) :=
    pySort_perm fileLe _
  have hwfs : ∀ f ∈ pySort fileLe (sources.map fun src =>
      FileInfo.from_json src lj.filelist c), wfFile f :=
    fun f hf => hwf f (hperm.mem_iff.mp hf)
  have hnds : ((pySort fileLe (sources.map fun src =>
      FileInfo.from_json src lj.filelist c)).map fun f => f.dst).Nodup :=
    ((hperm.map fun f => f.dst).symm).nodup hnd
  have hallowed := layerTemplate_allowed c
    ⟨layer_dir, pySort fileLe (sources.map fun src =>
      FileInfo.from_json src lj.filelist c), lj.when⟩ hwfs hlw
  have heq : (LayerInfo.from_fs layer_dir lj sources c).files =
      (pySort fileLe (sources.map fun src => FileInfo.from_json src lj.filelist c)).filter
        (fun file =>
          ((chevronRenderSplit
            (LayerInfo.mk layer_dir
              (pySort fileLe (sources.map fun src =>
                FileInfo.from_json src lj.filelist c)) lj.when).template c).filter
            (fun path => path ≠ "")).contains file.dst) := rfl
  rw [heq]
  constructor
  · intro h
    have hmem := List.mem_of_mem_filter h
    have hcont := List.of_mem_filter h
    rw [hallowed] at hcont
    have hdst : fi.dst ∈ ((pySort fileLe (sources.map fun src =>
        FileInfo.from_json src lj.filelist c)).filter
          fun f => condHolds c lj.when && condHolds c f.when).map (fun f => f.dst) := by
      simpa using hcont
    obtain ⟨g, hg, hgd⟩ := List.mem_map.mp hdst
    have hgmem := List.mem_of_mem_filter hg
    have hgcond := List.of_mem_filter hg
    have hgfi : g = fi := List.inj_on_of_nodup_map hnds hgmem hmem hgd
    subst hgfi
    simp only [Bool.and_eq_true] at hgcond
    exact ⟨hperm.mem_iff.mp hmem, hgcond.2, hgcond.1⟩
  · rintro ⟨hmem, hcw, hlwc⟩
    have hmems : fi ∈ pySort fileLe (sources.map fun src =>
        FileInfo.from_json src lj.filelist c) := hperm.mem_iff.mpr hmem
    apply List.mem_filter.mpr
    refine ⟨hmems, ?_⟩
    rw [hallowed]
    have hfin : fi ∈ (pySort fileLe (sources.map fun src =>
        FileInfo.from_json src lj.filelist c)).filter
          fun f => condHolds c lj.when && condHolds c f.when :=
      List.mem_filter.mpr ⟨hmems, by simp [hlwc, hcw]⟩
    have hdstmem : fi.dst ∈ ((pySort fileLe (sources.map fun src =>
        FileInfo.from_json src lj.filelist c)).filter
          fun f => condHolds c lj.when && condHolds c f.when).map (fun f => f.dst) :=
      List.mem_map.mpr ⟨fi, hfin, rfl⟩
    simpa using hdstmem

/-- Witness for C5 as amended: under `ctx5w` (FOO falsy, BAR truthy) the
`FOO`-gated `a.mustache` is dropped and the `BAR`-gated `b.txt` is kept. -/
theorem c5_witness :
    (¬ (FileInfo.from_json "a.mustache" lj5w.filelist ctx5w ∈
        (LayerInfo.from_fs "layer" lj5w srcs5w ctx5w).files)) ∧
    FileInfo.from_json "b.txt" lj5w.filelist ctx5w ∈
      (LayerInfo.from_fs "layer" lj5w srcs5w ctx5w).files := by
  constructor
  · intro h
    have := (c5_inclusion_iff "layer" lj5w srcs5w ctx5w
      (FileInfo.from_json "a.mustache" lj5w.filelist ctx5w)
      (by decide) (by decide) (by decide)).mp h
    revert this
    decide
  · exact (c5_inclusion_iff "layer" lj5w srcs5w ctx5w
      (FileInfo.from_json "b.txt" lj5w.filelist ctx5w)
      (by decide) (by decide) (by decide)).mpr (by decide)

/- ===================== C10: context nesting ===================== -/

